import Mathlib

/-!
Verification of the rs-cache core: block reassembly (lib.rs, ReadInternal::read_internal,
Cache::read, Cache::read_into_writer, Cache::create_checksum) and the validation manifest
(checksum.rs: Checksum, OsrsEncode::encode, Rs3Encode::encode, Checksum::validate).

Bytes are modelled as lists of naturals (each element one byte value).  Rust functions that
can panic are given an explicit abort outcome, so that a returned error value (Result::Err)
and a process abort are distinguished.  External collaborator crates (crc, whirlpool) are
taken as parameters; the sector module, the index tables and the codec module are not part
of the given sources and are modelled from the specification where noted.
-/

set_option maxRecDepth 10000

namespace RsCache

/-- Byte sequences: lists of naturals, one element per byte. -/
abbrev Bytes := List Nat

/-- Mirrors the Rust slice expression l[start..start+len]. -/
def slice (l : Bytes) (start len : Nat) : Bytes := (l.drop start).take len

/-- Big-endian interpretation of a byte sequence (nom be_u32 and friends). -/
def beNat (bs : Bytes) : Nat := bs.foldl (fun a b => a * 256 + b) 0

/-- u32::to_be_bytes. -/
def u32be (n : Nat) : Bytes := [n / 16777216 % 256, n / 65536 % 256, n / 256 % 256, n % 256]

/-- Modelled from the spec: the fixed physical block size of the main data file
(sector module, not under the given sources; spec section 4.3 block offset is
start_block_index times BLOCK_SIZE, and a block payload is 548 minus header size). -/
def SECTOR_SIZE : Nat := 548

/-- Modelled from the spec: the two header layouts, compact (8-byte header) and
extended (10-byte header), selected by whether the record id exceeds 65535. -/
inductive SectorHeaderSize
| normal
| expanded
deriving DecidableEq

/-- Header byte length of each layout (spec section 4.1). -/
def headerLen : SectorHeaderSize → Nat
| .normal => 8
| .expanded => 10

/-- Payload capacity of each layout: block size minus header size. -/
def dataLen (hs : SectorHeaderSize) : Nat := SECTOR_SIZE - headerLen hs

/-- Modelled from the spec: a block header, read fresh from each physical block. -/
structure SectorHeader where
  id : Nat
  chunk : Nat
  next : Nat
  index_id : Nat
deriving DecidableEq

/-- Modelled from the spec: a block is a parsed header plus the borrowed payload bytes. -/
structure Sector where
  header : SectorHeader
  dataBlock : Bytes
deriving DecidableEq

/-- A catalog entry: identifier, owning partition, starting block, declared byte length
(archive module, types referenced by lib.rs). -/
structure ArchiveRef where
  id : Nat
  index_id : Nat
  sector : Nat
  length : Nat
deriving DecidableEq

/-- Modelled from the spec: SectorHeaderSize::from_archive selects the extended layout
exactly when the record id exceeds the 16-bit range. -/
def SectorHeaderSize.fromArchive (a : ArchiveRef) : SectorHeaderSize :=
  if 65535 < a.id then .expanded else .normal

/-- Modelled from the spec: Sector::new parses the header fields (big-endian record id,
chunk index, next-block pointer, partition id) from the front of the given slice and
borrows the remainder as the payload; it fails when the slice is too short. -/
def sectorNew (block : Bytes) (hs : SectorHeaderSize) : Option Sector :=
  if block.length < headerLen hs then none
  else match hs with
    | .normal =>
        some ⟨⟨beNat (slice block 0 2), beNat (slice block 2 2),
               beNat (slice block 4 3), beNat (slice block 7 1)⟩, block.drop 8⟩
    | .expanded =>
        some ⟨⟨beNat (slice block 0 4), beNat (slice block 4 2),
               beNat (slice block 6 3), beNat (slice block 9 1)⟩, block.drop 10⟩

/-- Modelled from the spec: header validation succeeds exactly when the owning record id,
the chunk index and the partition id equal the expected triple supplied by the caller. -/
def SectorHeader.check (h : SectorHeader) (id chunk index_id : Nat) : Bool :=
  h.id == id && h.chunk == chunk && h.index_id == index_id

/-- The typed failures of the cache (error module, referenced by lib.rs). -/
inductive CacheError
| indexNotFound (index_id : Nat)
| archiveNotFound (index_id archive_id : Nat)
| sectorMismatch (offset id chunk index_id : Nat)
| sectorParse (sector : Nat)
| decodeFailed
deriving DecidableEq

/-- Outcome of a Rust computation: a returned value, a returned error value, a process
abort (Rust panic, e.g. out-of-range slice indexing), or the modelling artifact of an
exhausted loop bound (never produced, see the termination theorem). -/
inductive RRes (α : Type)
| ok (a : α)
| err (e : CacheError)
| abort
| diverge
deriving DecidableEq

/-- The reassembly loop of ReadInternal::read_internal (lib.rs lines 319-356), written
with an explicit iteration bound.  Each round: if remaining is at least the payload
capacity, slice one full block at current_sector times SECTOR_SIZE (a slice past the end
of the backing store is a Rust panic, modelled as abort), parse it, validate its header
against (archive.id, chunk, archive.index_id), emit its payload and continue at the
header's next pointer with chunk + 1; otherwise, if remaining is zero stop, else read
exactly remaining + header_len bytes, validate the same way, emit the partial payload
and stop. -/
def readLoopF (data : Bytes) (archive : ArchiveRef) (hs : SectorHeaderSize) :
    Nat → Nat → Nat → Nat → RRes Bytes
  | 0, _, _, _ => .diverge
  | fuel + 1, currentSector, remaining, chunk =>
    let offset := currentSector * SECTOR_SIZE
    if dataLen hs ≤ remaining then
      if offset + SECTOR_SIZE ≤ data.length then
        match sectorNew (slice data offset SECTOR_SIZE) hs with
        | none => .err (.sectorParse archive.sector)
        | some sector =>
          if sector.header.check archive.id chunk archive.index_id then
            match readLoopF data archive hs fuel sector.header.next
                (remaining - dataLen hs) (chunk + 1) with
            | .ok rest => .ok (sector.dataBlock ++ rest)
            | r => r
          else .err (.sectorMismatch offset archive.id chunk archive.index_id)
      else .abort
    else if remaining = 0 then .ok []
    else
      if offset + (remaining + headerLen hs) ≤ data.length then
        match sectorNew (slice data offset (remaining + headerLen hs)) hs with
        | none => .err (.sectorParse archive.sector)
        | some sector =>
          if sector.header.check archive.id chunk archive.index_id then .ok sector.dataBlock
          else .err (.sectorMismatch offset archive.id chunk archive.index_id)
      else .abort

/-- ReadInternal::read_internal (lib.rs lines 312-359): walk the chain starting at the
archive's first sector with remaining set to the declared length and chunk zero.  The
iteration bound length / capacity + 1 is sufficient (see the termination theorem), so
the result never takes the diverge value. -/
def read_internal (data : Bytes) (archive : ArchiveRef) : RRes Bytes :=
  let hs := SectorHeaderSize.fromArchive archive
  readLoopF data archive hs (archive.length / dataLen hs + 1) archive.sector archive.length 0

/-- Association-list lookup, modelling a hash-map get (the index tables are built by the
index module, not under the given sources; the spec describes them as mappings). -/
def alistGet {α : Type} (l : List (Nat × α)) (k : Nat) : Option α :=
  (l.find? (fun p => p.1 == k)).map (fun p => p.2)

/-- Modelled from the spec: one partition's table of archive references, keyed by record
id (the name-hash table for named lookup is omitted here: no claim concerns it). -/
structure Index where
  archive_refs : List (Nat × ArchiveRef)
deriving DecidableEq

/-- The parsed cache: the mapped main data file plus the per-partition index tables. -/
structure Cache where
  data : Bytes
  indices : List (Nat × Index)

/-- Cache::index_count (lib.rs line 301): the number of parsed index tables. -/
def Cache.index_count (c : Cache) : Nat := c.indices.length

/-- The reserved reference-table partition id (lib.rs line 111). -/
def REFERENCE_TABLE : Nat := 255

/-- Cache::read (lib.rs lines 170-185): resolve the index, then the archive reference,
then delegate to read_internal accumulating into an owned buffer. -/
def Cache.read (c : Cache) (index_id archive_id : Nat) : RRes Bytes :=
  match alistGet c.indices index_id with
  | none => .err (.indexNotFound index_id)
  | some index =>
    match alistGet index.archive_refs archive_id with
    | none => .err (.archiveNotFound index_id archive_id)
    | some archive => read_internal c.data archive

/-- Cache::read_into_writer (lib.rs lines 200-216): identical resolution, writing into a
caller-supplied sink; on success the bytes written are the returned sequence. -/
def Cache.read_into_writer (c : Cache) (index_id archive_id : Nat) : RRes Bytes :=
  match alistGet c.indices index_id with
  | none => .err (.indexNotFound index_id)
  | some index =>
    match alistGet index.archive_refs archive_id with
    | none => .err (.archiveNotFound index_id archive_id)
    | some archive => read_internal c.data archive

/-- One manifest entry (checksum.rs lines 95-100): crc, version, and the rs3-feature
whirlpool digest. -/
structure Entry where
  crc : Nat
  version : Nat
  hash : Bytes
deriving DecidableEq

/-- Entry::default (checksum.rs lines 249-259): zero crc, zero version, 64 zero bytes. -/
def defaultEntry : Entry := ⟨0, 0, List.replicate 64 0⟩

/-- The validation manifest (checksum.rs lines 111-114). -/
structure Checksum where
  index_count : Nat
  entries : List Entry
deriving DecidableEq

/-- Checksum::new (checksum.rs lines 117-122). -/
def Checksum.new (n : Nat) : Checksum := ⟨n, []⟩

/-- Checksum::push (checksum.rs lines 124-126). -/
def Checksum.push (c : Checksum) (e : Entry) : Checksum := ⟨c.index_count, c.entries ++ [e]⟩

/-- Checksum::validate (checksum.rs lines 148-152): collect the internal crcs and compare
with the supplied sequence. -/
def Checksum.validate (c : Checksum) (crcs : List Nat) : Bool :=
  (c.entries.map Entry.crc) == crcs

/-- Modelled from the spec: codec::encode with Compression::None (the compression
collaborator, out of scope per spec section 2; with no compression the plain-mode
manifest bytes are left as they are, spec section 4.6). -/
def codecEncodeNone (buf : Bytes) : Bytes := buf

/-- OsrsEncode::encode for Checksum (checksum.rs lines 170-182): concatenate, in manifest
order, 4 big-endian crc bytes then 4 big-endian version bytes per entry, then hand the
buffer to the codec with no compression. -/
def Checksum.osrsEncode (c : Checksum) : Bytes :=
  codecEncodeNone ((c.entries.map (fun e => u32be e.crc ++ u32be e.version)).flatten)

/-- One step of Cache::create_checksum (lib.rs lines 233-257) for partition index i.
A failed read appends nothing (the if-let silently discards the error); a successful
read appends a computed entry when the buffer is nonempty and i is not 47, else the
default entry.  codec::decode failure propagates as an error; decoded data shorter than
5 bytes makes the version parse index out of range, a Rust panic. -/
def checksumStep (cache : Cache) (decode : Bytes → Option Bytes) (crc : Bytes → Nat)
    (whirl : Bytes → Bytes) (ck : Checksum) (i : Nat) : RRes Checksum :=
  match cache.read REFERENCE_TABLE i with
  | .ok buffer =>
    if buffer ≠ [] ∧ i ≠ 47 then
      match decode buffer with
      | none => .err .decodeFailed
      | some d =>
        if d.length < 5 then .abort
        else
          let version := if 6 ≤ d.getD 0 0 then beNat (slice d 1 4) else 0
          .ok (ck.push ⟨crc buffer, version, whirl buffer⟩)
    else .ok (ck.push defaultEntry)
  | .err _ => .ok ck
  | .abort => .abort
  | .diverge => .diverge

/-- One fold step of the create_checksum loop: a loop body only runs when no earlier
round has already returned early with an error or a panic. -/
def checksumFold (cache : Cache) (decode : Bytes → Option Bytes) (crc : Bytes → Nat)
    (whirl : Bytes → Bytes) (acc : RRes Checksum) (i : Nat) : RRes Checksum :=
  match acc with
  | .ok ck => checksumStep cache decode crc whirl ck i
  | r => r

/-- Cache::create_checksum (lib.rs lines 230-260): start from an empty manifest carrying
index_count and fold the per-partition step over indices 0 up to index_count.  The crc
and whirlpool collaborators and codec::decode are parameters (external crates / module
not under the given sources). -/
def Cache.create_checksum (cache : Cache) (decode : Bytes → Option Bytes)
    (crc : Bytes → Nat) (whirl : Bytes → Bytes) : RRes Checksum :=
  (List.range cache.index_count).foldl (checksumFold cache decode crc whirl)
    (.ok (Checksum.new cache.index_count))

/-- Decimal digit run for parseDecimal; empty input is a parse failure. -/
def parseDigits (bs : Bytes) : Option Nat :=
  match bs with
  | [] => none
  | _ =>
    bs.foldl
      (fun acc b =>
        acc.bind (fun n => if 48 ≤ b ∧ b ≤ 57 then some (n * 10 + (b - 48)) else none))
      (some 0)

/-- BigInt::parse_bytes with radix 10 (num-bigint collaborator): an optional sign
character followed by at least one decimal digit; anything else fails. -/
def parseDecimal (bs : Bytes) : Option Int :=
  match bs with
  | [] => none
  | 43 :: rest => (parseDigits rest).map (fun n => (n : Int))
  | 45 :: rest => (parseDigits rest).map (fun n => -(n : Int))
  | _ => (parseDigits bs).map (fun n => (n : Int))

/-- Big-endian byte digits, most significant first (helper for natBytesBE; the first
argument bounds the number of digits and any value at least n suffices). -/
def natBytesBEAux : Nat → Nat → Bytes
  | 0, _ => []
  | fuel + 1, n => if n = 0 then [] else natBytesBEAux fuel (n / 256) ++ [n % 256]

/-- BigInt::to_bytes_be magnitude bytes (num-bigint collaborator): big-endian digits,
and the single byte 0 for the value zero. -/
def natBytesBE (n : Nat) : Bytes := if n = 0 then [0] else natBytesBEAux n n

/-- Magnitude of BigInt::modpow for a nonnegative base (num-bigint collaborator): the
representative of base ^ e in the interval [0, m) for m positive, (m, 0] for m negative. -/
def modpowMag (base e : Nat) (m : Int) : Nat :=
  let r := base ^ e % m.natAbs
  if m < 0 ∧ r ≠ 0 then m.natAbs - r else r

/-- copy_from_slice into buf[start..start+src.length]: fails (Rust panic) when the
destination range runs past the end of the buffer. -/
def writeRange (buf : Bytes) (start : Nat) (src : Bytes) : Option Bytes :=
  if start + src.length ≤ buf.length then
    some (buf.take start ++ src ++ buf.drop (start + src.length))
  else none

/-- The five field writes of one entry record in Rs3Encode::encode (checksum.rs lines
193-198), at offset index * 80: crc, version, two reserved zero words, then the 64-byte
digest (copy_from_slice also panics when the digest length is not 64). -/
def writeEntry (buf : Bytes) (k : Nat) (e : Entry) : Option Bytes :=
  let offset := k * 80
  (writeRange buf (offset + 1) (u32be e.crc)).bind fun b1 =>
  (writeRange b1 (offset + 5) (u32be e.version)).bind fun b2 =>
  (writeRange b2 (offset + 9) (u32be 0)).bind fun b3 =>
  (writeRange b3 (offset + 13) (u32be 0)).bind fun b4 =>
  if e.hash.length = 64 then writeRange b4 (offset + 17) e.hash else none

/-- All entry records of Rs3Encode::encode, in manifest order, entry k at offset k * 80. -/
def writeEntries : Bytes → Nat → List Entry → Option Bytes
  | buf, _, [] => some buf
  | buf, k, e :: rest =>
    match writeEntry buf k e with
    | none => none
    | some b => writeEntries b (k + 1) rest

/-- The record-buffer phase of Rs3Encode::encode (checksum.rs lines 188-199): allocate
81 * (index_count - 1) zero bytes, store index_count - 1 as byte 0 (out of range when the
buffer is empty, a Rust panic), then write every entry record.  index_count zero makes
the usize subtraction itself a panic. -/
def rs3Records (c : Checksum) : Option Bytes :=
  if c.index_count = 0 then none
  else
    let ic := c.index_count - 1
    let buf := List.replicate (81 * ic) (0 : Nat)
    match writeRange buf 0 [ic % 256] with
    | none => none
    | some b => writeEntries b 0 c.entries

/-- Rs3Encode::encode for Checksum (checksum.rs lines 185-217): build the record buffer,
whirlpool-digest it (collaborator parameter), prepend a zero sign byte, parse the
exponent and modulus as decimal big integers substituting zero on failure, raise the
digest value to the exponent modulo the modulus (BigInt::modpow, which is a Rust panic
when the modulus is zero or the exponent negative), and append the big-endian signature
bytes. -/
def Checksum.rs3Encode (c : Checksum) (exponent modulus : Bytes)
    (whirl : Bytes → Bytes) : RRes Bytes :=
  match rs3Records c with
  | none => .abort
  | some buf =>
    let hash := 0 :: whirl buf
    let exp := (parseDecimal exponent).getD 0
    let mud := (parseDecimal modulus).getD 0
    if mud = 0 then .abort
    else if exp < 0 then .abort
    else .ok (buf ++ natBytesBE (modpowMag (beNat hash) exp.toNat mud))

/-- Whether an outcome is a returned value (Result::Ok). -/
def RRes.isOk {α : Type} : RRes α → Bool
  | .ok _ => true
  | _ => false

/-! ## Concrete stores and manifests used as test vectors -/

/-- A catalog entry declaring 540 bytes starting at block 0 of an empty store. -/
def archPastEnd : ArchiveRef := ⟨0, 0, 0, 540⟩

/-- A cache whose backing store is empty but whose catalog points into it. -/
def cachePastEnd : Cache := ⟨[], [(0, ⟨[(0, archPastEnd)]⟩)]⟩

/-- A one-block store: a compact zero header for record 7 followed by 5 payload bytes. -/
def dataOne : Bytes := [0, 7, 0, 0, 0, 0, 0, 0] ++ [1, 2, 3, 4, 5]

/-- The catalog entry of record 7: 5 bytes starting at block 0 of partition 0. -/
def archOne : ArchiveRef := ⟨7, 0, 0, 5⟩

/-- The partition table holding record 7. -/
def idxOne : Index := ⟨[(7, archOne)]⟩

/-- A cache resolving (0, 7) to the one-block record above. -/
def cacheOne : Cache := ⟨dataOne, [(0, idxOne)]⟩

/-- A store whose single terminal block carries record id 1 in its header. -/
def dataBadId : Bytes := [0, 1, 0, 0, 0, 0, 0, 0, 99]

/-- A catalog entry expecting record id 0 at that block. -/
def archBadId : ArchiveRef := ⟨0, 0, 0, 1⟩

/-- A cache with one partition table and no reference table at all. -/
def cacheNoRef : Cache := ⟨[], [(0, ⟨[]⟩)]⟩

/-- The reference-table record of partition 0: present with declared length 0. -/
def archEmptyRec : ArchiveRef := ⟨0, 255, 0, 0⟩

/-- A cache with two partition tables whose reference table resolves index 0 to an
empty record and has no record for index 1. -/
def cacheHalf : Cache := ⟨[], [(255, ⟨[(0, archEmptyRec)]⟩), (0, ⟨[]⟩)]⟩

/-- A two-entry manifest with distinct crcs and versions. -/
def ckTwo : Checksum := ⟨2, [⟨5, 0, []⟩, ⟨9, 1, []⟩]⟩

/-- The all-zero 64-byte digest collaborator used in the test vectors. -/
def zeroDigest : Bytes → Bytes := fun _ => List.replicate 64 0

/-! ## Helper lemmas -/

lemma dataLen_pos (hs : SectorHeaderSize) : 0 < dataLen hs := by
  cases hs <;> decide

lemma length_slice (l : Bytes) (s n : Nat) (h : s + n ≤ l.length) :
    (slice l s n).length = n := by
  simp only [slice, List.length_take, List.length_drop]
  omega

lemma sectorNew_dataBlock {b : Bytes} {hs : SectorHeaderSize} {s : Sector}
    (h : sectorNew b hs = some s) : s.dataBlock = b.drop (headerLen hs) := by
  unfold sectorNew at h
  split at h
  · exact Option.noConfusion h
  · cases hs <;> (injection h with h2; subst h2; rfl)

lemma sectorNew_dataBlock_length {b : Bytes} {hs : SectorHeaderSize} {s : Sector}
    (h : sectorNew b hs = some s) : s.dataBlock.length = b.length - headerLen hs := by
  rw [sectorNew_dataBlock h, List.length_drop]

lemma readLoopF_ok_length (data : Bytes) (archive : ArchiveRef) (hs : SectorHeaderSize) :
    ∀ (fuel cs rem chunk : Nat) (out : Bytes),
      readLoopF data archive hs fuel cs rem chunk = .ok out → out.length = rem := by
  intro fuel
  induction fuel with
  | zero =>
    intro cs rem chunk out h
    simp [readLoopF] at h
  | succ n ih =>
    intro cs rem chunk out h
    simp only [readLoopF] at h
    split at h
    case isTrue h1 =>
      split at h
      case isTrue h2 =>
        cases hsec : sectorNew (slice data (cs * SECTOR_SIZE) SECTOR_SIZE) hs with
        | none => rw [hsec] at h; exact RRes.noConfusion h
        | some sector =>
          rw [hsec] at h
          simp only at h
          split at h
          case isTrue hv =>
            cases hrec : readLoopF data archive hs n sector.header.next
                (rem - dataLen hs) (chunk + 1) with
            | ok rest =>
              rw [hrec] at h
              simp only at h
              cases h
              have hdb : sector.dataBlock.length = dataLen hs := by
                rw [sectorNew_dataBlock_length hsec,
                    length_slice data (cs * SECTOR_SIZE) SECTOR_SIZE h2]
                rfl
              have hrest := ih _ _ _ _ hrec
              simp only [List.length_append, hdb, hrest]
              omega
            | err e => rw [hrec] at h; exact RRes.noConfusion h
            | abort => rw [hrec] at h; exact RRes.noConfusion h
            | diverge => rw [hrec] at h; exact RRes.noConfusion h
          case isFalse hv => exact RRes.noConfusion h
      case isFalse h2 => exact RRes.noConfusion h
    case isFalse h1 =>
      split at h
      case isTrue h0 =>
        cases h
        simp [h0]
      case isFalse h0 =>
        split at h
        case isTrue h2 =>
          cases hsec : sectorNew (slice data (cs * SECTOR_SIZE) (rem + headerLen hs)) hs with
          | none => rw [hsec] at h; exact RRes.noConfusion h
          | some sector =>
            rw [hsec] at h
            simp only at h
            split at h
            case isTrue hv =>
              cases h
              rw [sectorNew_dataBlock_length hsec,
                  length_slice data (cs * SECTOR_SIZE) (rem + headerLen hs) h2]
              omega
            case isFalse hv => exact RRes.noConfusion h
        case isFalse h2 => exact RRes.noConfusion h

lemma readLoopF_no_diverge (data : Bytes) (archive : ArchiveRef) (hs : SectorHeaderSize) :
    ∀ (fuel cs rem chunk : Nat), rem / dataLen hs < fuel →
      readLoopF data archive hs fuel cs rem chunk ≠ .diverge := by
  intro fuel
  induction fuel with
  | zero => intro cs rem chunk hf; exact absurd hf (Nat.not_lt_zero _)
  | succ n ih =>
    intro cs rem chunk hf
    simp only [readLoopF]
    split
    case isTrue h1 =>
      split
      case isTrue h2 =>
        cases hsec : sectorNew (slice data (cs * SECTOR_SIZE) SECTOR_SIZE) hs with
        | none => exact fun h => RRes.noConfusion h
        | some sector =>
          simp only
          split
          case isTrue hv =>
            have hlt : (rem - dataLen hs) / dataLen hs < n := by
              have hd := dataLen_pos hs
              have := Nat.div_eq_sub_div hd h1
              omega
            cases hrec : readLoopF data archive hs n sector.header.next
                (rem - dataLen hs) (chunk + 1) with
            | ok rest => simp only; exact fun h => RRes.noConfusion h
            | err e => simp only; exact fun h => RRes.noConfusion h
            | abort => simp only; exact fun h => RRes.noConfusion h
            | diverge => exact absurd hrec (ih _ _ _ hlt)
          case isFalse hv => exact fun h => RRes.noConfusion h
      case isFalse h2 => exact fun h => RRes.noConfusion h
    case isFalse h1 =>
      split
      case isTrue h0 => exact fun h => RRes.noConfusion h
      case isFalse h0 =>
        split
        case isTrue h2 =>
          cases hsec : sectorNew (slice data (cs * SECTOR_SIZE) (rem + headerLen hs)) hs with
          | none => exact fun h => RRes.noConfusion h
          | some sector =>
            simp only
            split
            case isTrue hv => exact fun h => RRes.noConfusion h
            case isFalse hv => exact fun h => RRes.noConfusion h
        case isFalse h2 => exact fun h => RRes.noConfusion h

/-! ## Claim theorems -/

/-- C1: whenever a (partition id, record id) pair resolves through the catalog tables and
Cache::read or Cache::read_into_writer succeeds, the produced byte sequence has length
exactly the catalog entry's declared byte length. -/
theorem read_ok_length (c : Cache) (i a : Nat) (idx : Index) (archive : ArchiveRef)
    (out : Bytes)
    (h1 : alistGet c.indices i = some idx)
    (h2 : alistGet idx.archive_refs a = some archive) :
    (Cache.read c i a = .ok out → out.length = archive.length) ∧
    (Cache.read_into_writer c i a = .ok out → out.length = archive.length) := by
  constructor
  · intro h
    simp only [Cache.read, h1, h2] at h
    exact readLoopF_ok_length c.data archive _ _ _ _ _ _ h
  · intro h
    simp only [Cache.read_into_writer, h1, h2] at h
    exact readLoopF_ok_length c.data archive _ _ _ _ _ _ h

/-- Witness for C1: reading record 7 of partition 0 in the concrete one-block cache
succeeds and yields exactly archOne.length = 5 bytes. -/
theorem read_ok_length_witness :
    (Cache.read cacheOne 0 7 = .ok [1, 2, 3, 4, 5]) ∧
    ([1, 2, 3, 4, 5] : Bytes).length = archOne.length :=
  ⟨by decide,
   (read_ok_length cacheOne 0 7 idxOne archOne [1, 2, 3, 4, 5]
      (by decide) (by decide)).1 (by decide)⟩

/-- C9: the reassembly loop terminates for every archive reference: the payload capacity
is positive, the loop completes within remaining / capacity + 1 rounds (the bound never
runs out), and read_internal never yields the exhausted-bound marker. -/
theorem reassembly_terminates (data : Bytes) (archive : ArchiveRef)
    (hs : SectorHeaderSize) (fuel cs rem chunk : Nat)
    (hf : rem / dataLen hs < fuel) :
    0 < dataLen hs ∧
    readLoopF data archive hs fuel cs rem chunk ≠ .diverge ∧
    read_internal data archive ≠ .diverge := by
  refine ⟨dataLen_pos hs, readLoopF_no_diverge data archive hs fuel cs rem chunk hf, ?_⟩
  exact readLoopF_no_diverge data archive _ _ _ _ _ (Nat.lt_succ_self _)

/-- Witness for C9 at a concrete store and archive reference. -/
theorem reassembly_terminates_witness :
    (0 : Nat) / dataLen .normal < 1 ∧
    (0 < dataLen .normal ∧
      readLoopF [] archPastEnd .normal 1 0 0 0 ≠ .diverge ∧
      read_internal [] archPastEnd ≠ .diverge) :=
  ⟨by decide, reassembly_terminates [] archPastEnd .normal 1 0 0 0 (by decide)⟩

/-- C7: read_internal starts the chain walk at chunk 0; on each hop the parsed block
header is checked against the expected (record id, chunk, partition id) triple before any
payload is emitted; a mismatch ends the walk at once with a structural error naming the
block's physical offset, and a match emits the payload and continues at chunk + 1 (the
terminal block emits and stops). -/
theorem chain_validation (data : Bytes) (archive : ArchiveRef) (hs : SectorHeaderSize)
    (fuel cs rem chunk : Nat) (s : Sector) :
    (read_internal data archive =
      readLoopF data archive (SectorHeaderSize.fromArchive archive)
        (archive.length / dataLen (SectorHeaderSize.fromArchive archive) + 1)
        archive.sector archive.length 0) ∧
    (dataLen hs ≤ rem →
      cs * SECTOR_SIZE + SECTOR_SIZE ≤ data.length →
      sectorNew (slice data (cs * SECTOR_SIZE) SECTOR_SIZE) hs = some s →
      (s.header.check archive.id chunk archive.index_id = false →
        readLoopF data archive hs (fuel + 1) cs rem chunk =
          .err (.sectorMismatch (cs * SECTOR_SIZE) archive.id chunk archive.index_id)) ∧
      (s.header.check archive.id chunk archive.index_id = true →
        readLoopF data archive hs (fuel + 1) cs rem chunk =
          match readLoopF data archive hs fuel s.header.next (rem - dataLen hs)
              (chunk + 1) with
          | .ok rest => .ok (s.dataBlock ++ rest)
          | r => r)) ∧
    (rem < dataLen hs → rem ≠ 0 →
      cs * SECTOR_SIZE + (rem + headerLen hs) ≤ data.length →
      sectorNew (slice data (cs * SECTOR_SIZE) (rem + headerLen hs)) hs = some s →
      (s.header.check archive.id chunk archive.index_id = false →
        readLoopF data archive hs (fuel + 1) cs rem chunk =
          .err (.sectorMismatch (cs * SECTOR_SIZE) archive.id chunk archive.index_id)) ∧
      (s.header.check archive.id chunk archive.index_id = true →
        readLoopF data archive hs (fuel + 1) cs rem chunk = .ok s.dataBlock)) := by
  refine ⟨rfl, ?_, ?_⟩
  · intro h1 h2 hsec
    constructor
    · intro hv
      simp only [readLoopF, if_pos h1, if_pos h2, hsec, hv]
      simp
    · intro hv
      simp only [readLoopF, if_pos h1, if_pos h2, hsec, hv]
      simp
  · intro h1 h0 h2 hsec
    have h1n : ¬ dataLen hs ≤ rem := by omega
    constructor
    · intro hv
      simp only [readLoopF, if_neg h1n, if_neg h0, if_pos h2, hsec, hv]
      simp
    · intro hv
      simp only [readLoopF, if_neg h1n, if_neg h0, if_pos h2, hsec, hv]
      simp

/-- Witness for C7: a concrete terminal block whose header declares record id 1 while
the catalog entry expects record id 0 makes the read stop with the structural error. -/
theorem chain_validation_witness :
    sectorNew (slice dataBadId 0 (1 + headerLen .normal)) .normal =
      some ⟨⟨1, 0, 0, 0⟩, [99]⟩ ∧
    readLoopF dataBadId archBadId .normal 1 0 1 0 =
      .err (.sectorMismatch 0 0 0 0) :=
  ⟨by decide,
   ((chain_validation dataBadId archBadId .normal 0 0 1 0 ⟨⟨1, 0, 0, 0⟩, [99]⟩).2.2
      (by decide) (by decide) (by decide) (by decide)).1 (by decide)⟩

lemma checksumStep_ok (cache : Cache) (dec : Bytes → Option Bytes) (crc : Bytes → Nat)
    (w : Bytes → Bytes) (ck ck1 : Checksum) (i : Nat)
    (h : checksumStep cache dec crc w ck i = .ok ck1) :
    ck1.index_count = ck.index_count ∧
    ck1.entries.length =
      ck.entries.length + (if (Cache.read cache REFERENCE_TABLE i).isOk then 1 else 0) := by
  unfold checksumStep at h
  cases hr : Cache.read cache REFERENCE_TABLE i with
  | ok buffer =>
    rw [hr] at h
    simp only at h
    split at h
    · cases hd : dec buffer with
      | none => rw [hd] at h; exact RRes.noConfusion h
      | some d =>
        rw [hd] at h
        simp only at h
        split at h
        · exact RRes.noConfusion h
        · cases h
          simp [hr, Checksum.push, RRes.isOk]
    · cases h
      simp [hr, Checksum.push, RRes.isOk]
  | err e => rw [hr] at h; cases h; simp [hr, RRes.isOk]
  | abort => rw [hr] at h; exact RRes.noConfusion h
  | diverge => rw [hr] at h; exact RRes.noConfusion h

lemma create_fold_stuck (cache : Cache) (dec : Bytes → Option Bytes) (crc : Bytes → Nat)
    (w : Bytes → Bytes) :
    ∀ (l : List Nat) (r : RRes Checksum), r.isOk = false →
      l.foldl (checksumFold cache dec crc w) r = r := by
  intro l
  induction l with
  | nil => intro r hr; rfl
  | cons i t ih =>
    intro r hr
    cases r with
    | ok a => simp [RRes.isOk] at hr
    | err e => simp only [List.foldl, checksumFold]; exact ih _ hr
    | abort => simp only [List.foldl, checksumFold]; exact ih _ hr
    | diverge => simp only [List.foldl, checksumFold]; exact ih _ hr

lemma create_fold_count (cache : Cache) (dec : Bytes → Option Bytes) (crc : Bytes → Nat)
    (w : Bytes → Bytes) :
    ∀ (l : List Nat) (ck0 ck : Checksum),
      l.foldl (checksumFold cache dec crc w) (.ok ck0) = .ok ck →
      ck.index_count = ck0.index_count ∧
      ck.entries.length =
        ck0.entries.length +
          l.countP (fun i => (Cache.read cache REFERENCE_TABLE i).isOk) := by
  intro l
  induction l with
  | nil =>
    intro ck0 ck h
    cases h
    simp
  | cons i t ih =>
    intro ck0 ck h
    simp only [List.foldl, checksumFold] at h
    cases hstep : checksumStep cache dec crc w ck0 i with
    | ok ck1 =>
      rw [hstep] at h
      have hrec := ih ck1 ck h
      have hone := checksumStep_ok cache dec crc w ck0 ck1 i hstep
      rw [List.countP_cons]
      rcases hrec with ⟨hic, hlen⟩
      rcases hone with ⟨hic1, hlen1⟩
      refine ⟨by omega, ?_⟩
      by_cases hok : (Cache.read cache REFERENCE_TABLE i).isOk
      · simp only [hok, if_pos] at hlen1 ⊢
        simp [hlen, hlen1]
        omega
      · simp only [Bool.not_eq_true] at hok
        simp only [hok] at hlen1 ⊢
        simp [hlen, hlen1]
    | err e =>
      rw [hstep] at h
      rw [create_fold_stuck cache dec crc w t (.err e) rfl] at h
      exact RRes.noConfusion h
    | abort =>
      rw [hstep] at h
      rw [create_fold_stuck cache dec crc w t .abort rfl] at h
      exact RRes.noConfusion h
    | diverge =>
      rw [hstep] at h
      rw [create_fold_stuck cache dec crc w t .diverge rfl] at h
      exact RRes.noConfusion h

/-- C2 (amended): when Cache::create_checksum returns a manifest, the manifest carries
index_count unchanged, but holds one entry per partition index whose reference-table
read succeeded: a failed read appends nothing, so the entry count equals the number of
readable indices and can fall short of index_count. -/
theorem create_checksum_entry_count (cache : Cache) (dec : Bytes → Option Bytes)
    (crc : Bytes → Nat) (w : Bytes → Bytes) (ck : Checksum)
    (h : Cache.create_checksum cache dec crc w = .ok ck) :
    ck.index_count = cache.index_count ∧
    ck.entries.length =
      (List.range cache.index_count).countP
        (fun i => (Cache.read cache REFERENCE_TABLE i).isOk) := by
  unfold Cache.create_checksum at h
  have := create_fold_count cache dec crc w (List.range cache.index_count)
    (Checksum.new cache.index_count) ck h
  simpa [Checksum.new] using this

/-- C2 counterexample: in a cache with one partition table and no reference table, the
(partition 255, record 0) read fails, create_checksum succeeds with zero entries, and
the entry count falls below index_count = 1 — no default entry was appended for the
absent record. -/
theorem create_checksum_skips_missing :
    Cache.create_checksum cacheNoRef (fun _ => none) (fun _ => 0) zeroDigest =
      .ok ⟨1, []⟩ ∧
    (Checksum.mk 1 []).entries.length < (Checksum.mk 1 []).index_count :=
  ⟨by decide, by decide⟩

/-- Witness for C2 (amended) at a cache where index 0 is readable (empty record, default
entry) and index 1 is absent: one entry for two partitions. -/
theorem create_checksum_entry_count_witness :
    (Cache.create_checksum cacheHalf (fun _ => none) (fun _ => 0) zeroDigest =
      .ok ⟨2, [defaultEntry]⟩) ∧
    (Checksum.mk 2 [defaultEntry]).entries.length =
      (List.range (Cache.index_count cacheHalf)).countP
        (fun i => (Cache.read cacheHalf REFERENCE_TABLE i).isOk) :=
  ⟨by decide,
   (create_checksum_entry_count cacheHalf (fun _ => none) (fun _ => 0) zeroDigest
      ⟨2, [defaultEntry]⟩ (by decide)).2⟩

lemma osrs_flat_length (l : List Entry) :
    ((l.map (fun e => u32be e.crc ++ u32be e.version)).flatten).length = 8 * l.length := by
  induction l with
  | nil => rfl
  | cons e t ih =>
    simp only [List.map_cons, List.flatten_cons, List.length_append, ih, List.length_cons]
    simp [u32be]
    ring

lemma osrs_flat_get (l : List Entry) :
    ∀ (k : Nat) (h : k < l.length),
      slice ((l.map (fun e => u32be e.crc ++ u32be e.version)).flatten) (8 * k) 8 =
        u32be (l.get ⟨k, h⟩).crc ++ u32be (l.get ⟨k, h⟩).version := by
  induction l with
  | nil => intro k h; exact absurd h (Nat.not_lt_zero k)
  | cons e t ih =>
    intro k h
    cases k with
    | zero =>
      simp only [List.map_cons, List.flatten_cons, slice, Nat.mul_zero, List.drop_zero,
        List.get]
      have hl : (u32be e.crc ++ u32be e.version).length = 8 := rfl
      rw [List.take_append_eq_append_take, hl, List.take_of_length_le (le_of_eq hl)]
      simp
    | succ k2 =>
      have hk : k2 < t.length := by
        simp only [List.length_cons] at h
        omega
      have hrec := ih k2 hk
      simp only [List.map_cons, List.flatten_cons, slice] at hrec ⊢
      have hl : (u32be e.crc ++ u32be e.version).length = 8 := rfl
      have h8 : 8 * (k2 + 1) = (u32be e.crc ++ u32be e.version).length + 8 * k2 := by
        rw [hl]; ring
      rw [h8, List.drop_append_eq_append_drop,
        List.drop_eq_nil_of_le (Nat.le_add_right _ _), List.nil_append,
        Nat.add_sub_cancel_left]
      exact hrec

/-- C4: the plain (OSRS) encoding has length exactly 8 times the entry count, and the
k-th 8-byte group is the big-endian crc then the big-endian version of entry k, in
manifest order. -/
theorem osrs_encode_layout (c : Checksum) (k : Nat) (h : k < c.entries.length) :
    (Checksum.osrsEncode c).length = 8 * c.entries.length ∧
    slice (Checksum.osrsEncode c) (8 * k) 8 =
      u32be (c.entries.get ⟨k, h⟩).crc ++ u32be (c.entries.get ⟨k, h⟩).version :=
  ⟨osrs_flat_length c.entries, osrs_flat_get c.entries k h⟩

/-- Witness for C4 at the concrete two-entry manifest: 16 bytes, first group (crc 5,
version 0). -/
theorem osrs_encode_layout_witness :
    (Checksum.osrsEncode ckTwo).length = 8 * ckTwo.entries.length ∧
    slice (Checksum.osrsEncode ckTwo) (8 * 0) 8 =
      u32be (ckTwo.entries.get ⟨0, by decide⟩).crc ++
        u32be (ckTwo.entries.get ⟨0, by decide⟩).version :=
  osrs_encode_layout ckTwo 0 (by decide)

/-- C5: Checksum::validate accepts exactly the sequences that agree with the manifest's
crc sequence element for element, in order and in length. -/
theorem validate_iff (c : Checksum) (crcs : List Nat) :
    Checksum.validate c crcs = true ↔
      (crcs.length = c.entries.length ∧
        ∀ (i : Nat) (h1 : i < c.entries.length) (h2 : i < crcs.length),
          crcs.get ⟨i, h2⟩ = (c.entries.get ⟨i, h1⟩).crc) := by
  unfold Checksum.validate
  rw [beq_iff_eq]
  constructor
  · intro h
    subst h
    refine ⟨by simp, ?_⟩
    intro i h1 h2
    simp
  · rintro ⟨hl, hi⟩
    apply List.ext_get
    · simp [hl]
    · intro n h1 h2
      have hn : n < c.entries.length := by
        simp only [List.length_map] at h1
        exact h1
      have h3 := hi n hn h2
      simp only [List.get_eq_getElem] at h3
      simp only [List.get_eq_getElem, List.getElem_map]
      exact h3.symm

/-- Witness for C5 at the concrete two-entry manifest and the matching crc sequence. -/
theorem validate_iff_witness :
    Checksum.validate ckTwo [5, 9] = true ↔
      (([5, 9] : List Nat).length = ckTwo.entries.length ∧
        ∀ (i : Nat) (h1 : i < ckTwo.entries.length) (h2 : i < ([5, 9] : List Nat).length),
          ([5, 9] : List Nat).get ⟨i, h2⟩ = (ckTwo.entries.get ⟨i, h1⟩).crc) :=
  validate_iff ckTwo [5, 9]

/-- C6: with a catalog entry whose chain runs past the end of the empty backing store,
Cache::read and Cache::read_into_writer hit the unchecked slice indexing of the mapped
region and abort (Rust panic) instead of returning a structural error value. -/
theorem read_past_end_aborts :
    Cache.read cachePastEnd 0 0 = .abort ∧
    Cache.read_into_writer cachePastEnd 0 0 = .abort :=
  ⟨by decide, by decide⟩

/-- C3: on a manifest with 2 entries and index_count 2, the signed (RS3) encoding aborts
with an out-of-bounds buffer write (entry 1's record needs bytes 81..161 of the 81-byte
record buffer) instead of producing the 81-byte record layout plus signature. -/
theorem rs3_encode_two_entries_aborts :
    Checksum.rs3Encode ⟨2, [defaultEntry, defaultEntry]⟩ [55] [49, 49] zeroDigest =
      .abort := by decide

/-- C10: on a manifest whose entry count equals its index_count = 3, the per-entry
writes of the signed encoding do not stay within the 81 * 2 = 162-byte record buffer:
entry 2's first field write targets bytes 161..165 and the encode aborts. -/
theorem rs3_encode_three_entries_aborts :
    Checksum.rs3Encode ⟨3, [defaultEntry, defaultEntry, defaultEntry]⟩ [51] [55]
      zeroDigest = .abort := by decide

/-- C8 counterexample: with an unparseable modulus (the bytes of the text abc) the
signed encoding substitutes the default zero big integer and then aborts in the modular
exponentiation (BigInt::modpow panics on a zero modulus) — it does not complete the
encode normally. -/
theorem rs3_encode_bad_modulus_aborts :
    Checksum.rs3Encode ⟨3, [defaultEntry]⟩ [49, 48] [97, 98, 99] zeroDigest =
      .abort := by decide

/-- C8 (amended): a parse failure of the exponent or modulus silently substitutes the
default zero big integer; with a failed exponent and a nonzero parsed modulus the encode
completes normally (the signature becomes the digest value to the power zero modulo the
modulus), but with a failed modulus the subsequent modular exponentiation has a zero
modulus and the encode aborts. -/
theorem rs3_encode_parse_defaults (c : Checksum) (e m : Bytes) (w : Bytes → Bytes)
    (buf : Bytes) (hbuf : rs3Records c = some buf) :
    (∀ mi : Int, parseDecimal e = none → parseDecimal m = some mi → mi ≠ 0 →
      Checksum.rs3Encode c e m w =
        .ok (buf ++ natBytesBE (modpowMag (beNat (0 :: w buf)) 0 mi))) ∧
    (parseDecimal m = none → Checksum.rs3Encode c e m w = .abort) := by
  constructor
  · intro mi he hm hne
    unfold Checksum.rs3Encode
    rw [hbuf]
    simp only [he, hm, Option.getD_some, Option.getD_none]
    rw [if_neg hne, if_neg (by decide : ¬ ((0 : Int) < 0))]
    rfl
  · intro hm
    unfold Checksum.rs3Encode
    rw [hbuf]
    simp [hm]

/-- Witness for C8 (amended): unparseable exponent (the byte of the letter x), modulus 7:
the encode completes with the power-zero signature. -/
theorem rs3_encode_parse_defaults_witness :
    Checksum.rs3Encode ⟨3, [defaultEntry]⟩ [120] [55] zeroDigest =
      .ok (((rs3Records ⟨3, [defaultEntry]⟩).getD []) ++
        natBytesBE (modpowMag
          (beNat (0 :: zeroDigest ((rs3Records ⟨3, [defaultEntry]⟩).getD []))) 0 7)) :=
  (rs3_encode_parse_defaults ⟨3, [defaultEntry]⟩ [120] [55] zeroDigest
      ((rs3Records ⟨3, [defaultEntry]⟩).getD []) (by decide)).1 7
    (by decide) (by decide) (by decide)

end RsCache
